import Mathlib

/-!
Verification of the content & image resolution pipeline of the
`tippahsports` repository (modules `rss_to_wp/feeds/parser.py`,
`rss_to_wp/images/rss_extractor.py`, `rss_to_wp/images/downloader.py`).

The Python code is shallowly embedded: pure string/URL manipulation is
translated into executable Lean functions over `List Char` / `String`;
network calls (`requests.get`, the article scraper, the stock-photo
provider clients) and the HTML parser (`BeautifulSoup`) are passed in as
explicit oracle parameters; Python exceptions, where the source lets them
escape, are modelled with `Except`.

All string operations assume ASCII text (Python's `str.lower` agrees with
the ASCII lowering used here on every input appearing in the claims).
-/

namespace TippahSports

/-! ## Python string primitives -/

/-- ASCII lowering of one character, as Python `str.lower` acts on ASCII. -/
def asciiLower (c : Char) : Char :=
  if 'A' ≤ c ∧ c ≤ 'Z' then Char.ofNat (c.toNat + 32) else c

/-- ASCII lowering of a character list (Python `s.lower()`). -/
def lowerL (l : List Char) : List Char := l.map asciiLower

/-- Python whitespace characters recognised by `\s` and `str.strip`. -/
def isPySpace (c : Char) : Bool :=
  c = ' ' ∨ c = '\t' ∨ c = '\n' ∨ c = '\r' ∨ c = '\x0b' ∨ c = '\x0c'

/-- Python `pat in s` substring test (`pat` occurs contiguously in `l`). -/
def subL (pat : List Char) : List Char → Bool
  | [] => pat.isEmpty
  | c :: rest => pat.isPrefixOf (c :: rest) || subL pat rest

/-- Python `s.endswith(pat)`. -/
def endsL (l pat : List Char) : Bool := pat.reverse.isPrefixOf l.reverse

/-- Python `s.startswith(pre)` (kernel-reducible, unlike
`String.startsWith`). -/
def pyStartsWith (s pre : String) : Bool := pre.data.isPrefixOf s.data

/-- Python `s.strip()`: drop leading and trailing whitespace. -/
def pyStripL (l : List Char) : List Char :=
  ((l.dropWhile isPySpace).reverse.dropWhile isPySpace).reverse

/-- State machine for `re.sub(r'<[^>]+>', '', s)`: the second argument is
`none` outside a candidate tag and `some buf` after an unclosed `<` with
the (reversed) non-`>` characters read so far. -/
def stripTagsAux : List Char → Option (List Char) → List Char
  | [], none => []
  | [], some buf => '<' :: buf.reverse
  | c :: rest, none =>
    if c = '<' then stripTagsAux rest (some [])
    else c :: stripTagsAux rest none
  | c :: rest, some buf =>
    if c = '>' then
      if buf.isEmpty then '<' :: '>' :: stripTagsAux rest none
      else stripTagsAux rest none
    else stripTagsAux rest (some (c :: buf))

/-- `re.sub(r'<[^>]+>', '', s)` from `get_entry_content`. -/
def stripTags (l : List Char) : List Char := stripTagsAux l none

/-- State machine for `re.sub(r'\s+', ' ', s)`: the flag records whether
the previous character belonged to a whitespace run. -/
def collapseWsAux : List Char → Bool → List Char
  | [], _ => []
  | c :: rest, inRun =>
    if isPySpace c then
      if inRun then collapseWsAux rest true
      else ' ' :: collapseWsAux rest true
    else c :: collapseWsAux rest false

/-- `re.sub(r'\s+', ' ', s)` from `get_entry_content`. -/
def collapseWs (l : List Char) : List Char := collapseWsAux l false

/-- State machine for Python `s.replace("www.", "")` (left-to-right,
non-overlapping); the counter is the number of pending `'w'` characters
(0–3) that may still begin a `"www."` occurrence. -/
def removeWwwAux : List Char → Nat → List Char
  | [], k => List.replicate k 'w'
  | c :: rest, k =>
    if c = 'w' then
      if k < 3 then removeWwwAux rest (k + 1)
      else 'w' :: removeWwwAux rest 3
    else if c = '.' ∧ k = 3 then removeWwwAux rest 0
    else List.replicate k 'w' ++ c :: removeWwwAux rest 0

/-- Python `s.replace("www.", "")` as used in `is_same_domain`. -/
def removeWww (l : List Char) : List Char := removeWwwAux l 0

/-- Python `s.split('/')` (a separator is consumed, empty pieces kept). -/
def splitSlash : List Char → List (List Char)
  | [] => [[]]
  | c :: rest =>
    if c = '/' then [] :: splitSlash rest
    else
      match splitSlash rest with
      | [] => [[c]]
      | h :: t => (c :: h) :: t

/-- Python `s.rstrip('/')`. -/
def rstripSlash (l : List Char) : List Char :=
  (l.reverse.dropWhile (· = '/')).reverse

/-- Python `s.split()`: split on whitespace runs, dropping empty pieces.
The accumulator holds the reversed current word. -/
def pySplitWsAux : List Char → List Char → List (List Char)
  | [], [] => []
  | [], acc => [acc.reverse]
  | c :: rest, acc =>
    if isPySpace c then
      if acc.isEmpty then pySplitWsAux rest []
      else acc.reverse :: pySplitWsAux rest []
    else pySplitWsAux rest (c :: acc)

/-- Python `s.split()` with no argument. -/
def pySplitWs (l : List Char) : List (List Char) := pySplitWsAux l []

/-! ## `urllib.parse.urlparse`, restricted to the components the code
reads (`scheme`, `netloc`, `path`, `query`). -/

structure UrlParts where
  scheme : String
  netloc : String
  path : String
  query : String
deriving DecidableEq, Repr

/-- Characters allowed after the first one in a URL scheme. -/
def isSchemeChar (c : Char) : Bool :=
  c.isAlphanum ∨ c = '+' ∨ c = '-' ∨ c = '.'

/-- `urllib.parse.urlparse`: split off a scheme at the first `':'` when
the prefix is a well-formed scheme, a `netloc` after `"//"` delimited by
`/?#`, then drop a `#`-fragment and split path from query at `'?'`.
The scheme is lowercased, as in CPython; `netloc` keeps its case (the
source lowercases it at each use site). -/
def pyUrlparse (url : String) : UrlParts :=
  let l := url.data
  let pre := l.takeWhile (· ≠ ':')
  let (schemeL, rest1) :=
    if pre.length < l.length ∧ pre ≠ [] ∧
        (pre.headD ' ').isAlpha ∧ pre.all isSchemeChar then
      (lowerL pre, l.drop (pre.length + 1))
    else ([], l)
  let (netlocL, rest2) :=
    if rest1.take 2 = ['/', '/'] then
      let after := rest1.drop 2
      let nl := after.takeWhile (fun c => c ≠ '/' ∧ c ≠ '?' ∧ c ≠ '#')
      (nl, after.drop nl.length)
    else (([] : List Char), rest1)
  let noFrag := rest2.takeWhile (· ≠ '#')
  let pathL := noFrag.takeWhile (· ≠ '?')
  let queryL :=
    if pathL.length < noFrag.length then noFrag.drop (pathL.length + 1) else []
  ⟨String.mk schemeL, String.mk netlocL, String.mk pathL, String.mk queryL⟩

/-! ## `rss_extractor.py`: constants -/

/-- `IMAGE_EXTENSIONS` (a Python set; only membership/any is used, so the
iteration order is irrelevant). -/
def IMAGE_EXTENSIONS : List String :=
  [".jpg", ".jpeg", ".png", ".gif", ".webp", ".bmp"]

/-- `IMAGE_MIME_TYPES`. -/
def IMAGE_MIME_TYPES : List String :=
  ["image/jpeg", "image/png", "image/gif", "image/webp", "image/bmp"]

/-- `BLOCKED_IMAGE_DOMAINS` (a Python set; only an any-substring test is
performed, so the iteration order is irrelevant). -/
def BLOCKED_IMAGE_DOMAINS : List String :=
  ["doubleclick.net", "googlesyndication.com", "googleadservices.com",
   "adnxs.com", "adsrvr.org", "amazon-adsystem.com", "advertising.com",
   "pubmatic.com", "rubiconproject.com", "criteo.com", "taboola.com",
   "outbrain.com",
   "facebook.com", "facebook.net", "twitter.com", "analytics", "pixel",
   "beacon", "tracking",
   "adult", "xxx", "porn", "nsfw",
   "ads.", "ad.", "banner", "sponsor",
   "shutterstock", "istockphoto", "gettyimages"]

/-! ## `rss_extractor.py`: URL/domain classifier -/

/-- `is_image_domain_blocked(url)`: true on an empty URL or when the
lowercased URL contains any blocklist substring.  (The `try` body cannot
raise, so the `except` branch is dead.) -/
def is_image_domain_blocked (url : String) : Bool :=
  if url = "" then true
  else
    let urlLower := lowerL url.data
    BLOCKED_IMAGE_DOMAINS.any (fun blocked => subL blocked.data urlLower)

/-- `trusted_cdn_patterns` from `is_same_domain`. -/
def trusted_cdn_patterns : List (String × String) :=
  [("careyathletics.com", "sidearm"),
   ("careyathletics.com", "sidearmsports"),
   ("careyathletics.com", "prestosports")]

/-- The decision core of `is_same_domain`, acting on the already
normalised (lowercased, `"www."`-stripped) source and image hosts:
exact match, or image host ends with `"." + source host`, or a trusted
(site, CDN-fragment) pair matches by substring. -/
def sameDomainCore (sd idm : List Char) : Bool :=
  if sd = idm then true
  else if endsL idm ('.' :: sd) then true
  else trusted_cdn_patterns.any
    (fun p => subL p.1.data sd && subL p.2.data idm)

/-- `is_same_domain(source_url, image_url)`.  The `try` body cannot raise,
so the `except` branch is dead. -/
def is_same_domain (source_url image_url : String) : Bool :=
  if source_url = "" ∨ image_url = "" then false
  else
    let sd := removeWww (lowerL (pyUrlparse source_url).netloc.data)
    let idm := removeWww (lowerL (pyUrlparse image_url).netloc.data)
    sameDomainCore sd idm

/-- `known_image_hosts` from `is_valid_image_url`. -/
def known_image_hosts : List String :=
  ["pexels.com", "unsplash.com", "cloudinary.com", "imgix.net", "wp.com",
   "wordpress.com", "flickr.com", "staticflickr.com", "sidearm",
   "prestosports", "bmcusports.com", "careyathletics.com",
   "nwccrangers.com", "coahomasports.com", "gostatesmen.com",
   "mvsusports.com", "alcornsports.com", "gojsutigers.com",
   "southernmiss.com", "hailstate.com", "olemisssports.com",
   "gochoctaws.com", "blazers.belhaven.edu", "gomajors.com",
   "owlsathletics.com", "sports.hindscc.edu", "jcbobcats.com",
   "southwestbearathletics.com", "bmcusports.com"]

/-- `is_valid_image_url(url)`: scheme and host present, and (an image
extension occurs in the final path segment, or the query carries a
`format=`/`type=`/`image_path=` hint, or a known image host occurs in the
host as a substring). -/
def is_valid_image_url (url : String) : Bool :=
  if url = "" then false
  else
    let parsed := pyUrlparse url
    if parsed.scheme = "" ∨ parsed.netloc = "" then false
    else
      let pathLower := lowerL parsed.path.data
      let filename := (splitSlash (rstripSlash pathLower)).getLastD []
      if IMAGE_EXTENSIONS.any (fun ext => subL ext.data filename) then true
      else
        let queryLower := lowerL parsed.query.data
        if subL "format=jpg".data queryLower ∨ subL "format=jpeg".data queryLower
            ∨ subL "format=png".data queryLower then true
        else if subL "type=jpg".data queryLower ∨ subL "type=jpeg".data queryLower
            ∨ subL "type=png".data queryLower then true
        else if subL "image_path=".data queryLower ∧
            (subL ".jpg".data queryLower ∨ subL ".jpeg".data queryLower
              ∨ subL ".png".data queryLower) then true
        else
          known_image_hosts.any
            (fun host => subL host.data (lowerL parsed.netloc.data))

/-! ## Correctness of the substring primitive -/

theorem subL_iff (pat l : List Char) : subL pat l = true ↔ pat <:+: l := by
  induction l with
  | nil => simp [subL, List.isEmpty_iff]
  | cons c rest ih =>
    simp only [subL, Bool.or_eq_true, ih, List.infix_cons_iff,
      List.isPrefixOf_iff_prefix]

theorem subL_of_append_right (pat a b : List Char)
    (h : subL pat a = true) : subL pat (a ++ b) = true := by
  rw [subL_iff] at h ⊢
  exact h.trans ((List.prefix_append a b).isInfix)

theorem subL_of_append_left (pat a b : List Char)
    (h : subL pat b = true) : subL pat (a ++ b) = true := by
  rw [subL_iff] at h ⊢
  exact h.trans ((List.suffix_append a b).isInfix)

/-! ## Claim theorems for the URL/domain classifier -/

/-- C5: `is_image_domain_blocked(url)` is true exactly when the URL is
empty or its lowercased text contains some substring from the fixed
blocklist; in particular, a URL whose host is one of the blocklisted
domains is blocked regardless of path and query. -/
theorem is_image_domain_blocked_spec :
    (∀ url : String, is_image_domain_blocked url = true ↔
      (url = "" ∨ ∃ b ∈ BLOCKED_IMAGE_DOMAINS, b.data <:+: lowerL url.data))
    ∧ (∀ b path : String, b ∈ BLOCKED_IMAGE_DOMAINS →
      is_image_domain_blocked ("https://" ++ b ++ path) = true) := by
  have hmain : ∀ url : String, is_image_domain_blocked url = true ↔
      (url = "" ∨ ∃ b ∈ BLOCKED_IMAGE_DOMAINS, b.data <:+: lowerL url.data) := by
    intro url
    unfold is_image_domain_blocked
    by_cases h : url = ""
    · simp [h]
    · simp only [h, if_false, List.any_eq_true, subL_iff, false_or]
  refine ⟨hmain, fun b path hb => ?_⟩
  rw [hmain]
  right
  refine ⟨b, hb, ?_⟩
  have hlow : lowerL b.data = b.data := by
    revert b
    decide
  have hdata : ("https://" ++ b ++ path).data
      = "https://".data ++ (b.data ++ path.data) := by
    simp [String.data_append, List.append_assoc]
  rw [hdata]
  unfold lowerL
  rw [List.map_append]
  refine List.IsInfix.trans ?_ (List.suffix_append _ _).isInfix
  rw [List.map_append]
  refine List.IsInfix.trans ?_ (List.prefix_append _ _).isInfix
  rw [show List.map asciiLower b.data = lowerL b.data from rfl, hlow]

/-- C5 witness: the theorem applied to the blocklisted host
`doubleclick.net` with a concrete path and query. -/
theorem is_image_domain_blocked_spec_witness :
    is_image_domain_blocked "https://doubleclick.net/x?q=1" = true :=
  is_image_domain_blocked_spec.2 "doubleclick.net" "/x?q=1" (by decide)

/-- C6: the three concrete `is_valid_image_url` evaluations — an image
extension with a query suffix is accepted, an extensionless URL on an
unlisted host is rejected, and the empty URL is rejected. -/
theorem is_valid_image_url_examples :
    is_valid_image_url "https://cdn.example.com/img/pic.jpg?width=300" = true
    ∧ is_valid_image_url "https://example.com/page" = false
    ∧ is_valid_image_url "" = false := by
  refine ⟨by decide, by decide, by decide⟩

/-- C3 counterexample: with source host `x.example.com` and image host
`example.com` (the image on the *parent* domain of the source),
`is_same_domain` returns `false`, because the code only trusts the image
host when it ends with `"." +` source host — the claim asserts this very
call is true. -/
theorem is_same_domain_parent_counterexample :
    is_same_domain "https://x.example.com/a" "https://example.com/img.jpg"
      = false := by decide

/-- C3 amended: `is_same_domain("https://x.example.com/a",
"https://example.com/img.jpg")` is false; the subdomain rule is
directional the other way round — the reversed pair is true — and on
normalised hosts that miss every trusted-CDN pair, `sameDomainCore`
passes exactly on equality or when the image host ends with
`"." +` source host. -/
theorem is_same_domain_directional :
    is_same_domain "https://x.example.com/a" "https://example.com/img.jpg"
      = false
    ∧ is_same_domain "https://example.com/a" "https://x.example.com/img.jpg"
      = true
    ∧ ∀ sd idm : List Char,
        trusted_cdn_patterns.any
          (fun p => subL p.1.data sd && subL p.2.data idm) = false →
        (sameDomainCore sd idm = true ↔
          sd = idm ∨ endsL idm ('.' :: sd) = true) := by
  refine ⟨by decide, by decide, fun sd idm htr => ?_⟩
  unfold sameDomainCore
  rw [htr]
  split_ifs with h1 h2 <;> simp_all

/-- C3 amended witness: the characterisation applied to the concrete
normalised hosts `example.com` and `img.example.com`. -/
theorem is_same_domain_directional_witness :
    sameDomainCore "example.com".data "img.example.com".data = true ↔
      ("example.com".data = "img.example.com".data
        ∨ endsL "img.example.com".data ('.' :: "example.com".data) = true) :=
  is_same_domain_directional.2.2 "example.com".data "img.example.com".data
    (by decide)

/-- C10: the host-allowlist branch of `is_valid_image_url` matches by
substring containment: any URL with a scheme and host whose host merely
contains a known-image-host string is accepted. -/
theorem is_valid_image_url_host_substring (url : String)
    (hscheme : (pyUrlparse url).scheme ≠ "")
    (hnetloc : (pyUrlparse url).netloc ≠ "")
    (hhost : ∃ h ∈ known_image_hosts,
      subL h.data (lowerL (pyUrlparse url).netloc.data) = true) :
    is_valid_image_url url = true := by
  have hurl : url ≠ "" := by
    intro h
    subst h
    exact hnetloc (by decide)
  unfold is_valid_image_url
  simp only [hurl, if_false]
  have hne : ¬((pyUrlparse url).scheme = "" ∨ (pyUrlparse url).netloc = "") := by
    rintro (h | h) <;> [exact hscheme h; exact hnetloc h]
  simp only [hne, if_false]
  have hany : known_image_hosts.any
      (fun host => subL host.data (lowerL (pyUrlparse url).netloc.data))
      = true := by
    obtain ⟨h, hmem, hsub⟩ := hhost
    exact List.any_eq_true.mpr ⟨h, hmem, hsub⟩
  split_ifs <;> simp [hany]

/-- C10 witness: host `wp.com.attacker.example` contains `wp.com`, so the
extensionless URL is accepted. -/
theorem is_valid_image_url_host_substring_witness :
    is_valid_image_url "https://wp.com.attacker.example/page" = true :=
  is_valid_image_url_host_substring "https://wp.com.attacker.example/page"
    (by decide) (by decide) ⟨"wp.com", by decide, by decide⟩

/-! ## Feed entries (typed view)

A feedparser entry is a mapping with optional fields.  This typed view
models each field the code reads; `none` means the key is absent, and
inner `.get(k, default)` accesses are modelled with the corresponding
defaults.  (A separate untyped embedding below, used for the
error-handling claim, covers heterogeneously shaped entries.) -/

/-- One element of `entry["links"]`: `.get("href"/"rel"/"type")` return
`None` when absent, so the fields are optional. -/
structure LinkObj where
  href : Option String := none
  rel : Option String := none
  ltype : Option String := none
deriving DecidableEq, Repr

/-- One element of `entry["content"]`; only `.get("value", "")` is read. -/
structure ContentItem where
  value : String := ""
deriving DecidableEq, Repr

/-- One element of `entry["media_content"]`; `.get` defaults are `""`. -/
structure MediaItem where
  url : String := ""
  mtype : String := ""
  medium : String := ""
deriving DecidableEq, Repr

/-- One element of `entry["media_thumbnail"]`. -/
structure ThumbItem where
  url : String := ""
deriving DecidableEq, Repr

/-- One element of `entry["enclosures"]`. -/
structure EnclosureItem where
  href : String := ""
  url : String := ""
  etype : String := ""
deriving DecidableEq, Repr

/-- A feed entry restricted to the fields the resolution code reads. -/
structure Entry where
  title : Option String := none
  link : Option String := none
  links : Option (List LinkObj) := none
  content : Option (List ContentItem) := none
  summary : Option String := none
  description : Option String := none
  media_content : Option (List MediaItem) := none
  media_thumbnail : Option (List ThumbItem) := none
  enclosures : Option (List EnclosureItem) := none
deriving DecidableEq, Repr

/-! ## `feeds/parser.py`: content resolution -/

/-- Lines 156–170 of `get_entry_content`: feed content preference
`content[0].value` (when `content` is a non-empty list), else `summary`
(when the key is present), else `description`.  Falsiness of a Python
string is emptiness. -/
def feedRssContent (e : Entry) : String :=
  let r1 :=
    match e.content with
    | some (h :: _) => h.value
    | _ => ""
  let r2 :=
    if r1 = "" then
      match e.summary with
      | some s => s
      | none => ""
    else r1
  if r2 = "" then e.description.getD "" else r2

/-- The stripped-text length measured by `get_entry_content`
(lines 174–175): strip HTML tags, collapse whitespace, trim, count. -/
def cleanLen (s : String) : Nat :=
  (pyStripL (collapseWs (stripTags s.data))).length

/-- Lines 179–186 of `get_entry_content`: resolve a source URL — entry
`link`, else the first `links[]` element with `rel == "alternate"` or
`type == "text/html"` (its `href`, which may be absent and hence falsy),
else `links[0].href`.  The empty string is the falsy "no URL". -/
def resolveSourceUrlS (e : Entry) : String :=
  let su := e.link.getD ""
  if su ≠ "" then su
  else
    match e.links with
    | some ls =>
      if ls ≠ [] then
        let found := ls.find?
          (fun l => l.rel == some "alternate" || l.ltype == some "text/html")
        let su2 := match found with
          | some l => l.href.getD ""
          | none => ""
        if su2 ≠ "" then su2
        else
          match ls with
          | h :: _ => h.href.getD ""
          | [] => ""
      else ""
    | none => ""

/-- `resolveSourceUrlS` as an `Option`, `none` meaning falsy. -/
def resolveSourceUrl (e : Entry) : Option String :=
  let s := resolveSourceUrlS e
  if s = "" then none else some s

/-- `get_entry_content(entry, scrape_if_short)`.  The network-dependent
`scrape_article_content` is the oracle `scrape` (`none` models any
failure, which that function converts to `None` internally). -/
def get_entry_content (scrape : String → Option String)
    (e : Entry) (scrape_if_short : Bool := true) : String :=
  let rss := feedRssContent e
  let clean := cleanLen rss
  if scrape_if_short ∧ clean < 500 then
    let su := resolveSourceUrlS e
    if su ≠ "" then
      match scrape su with
      | some sc => if sc ≠ "" ∧ sc.length > clean then sc else rss
      | none => rss
    else rss
  else rss

/-- C1: with scraping enabled, `get_entry_content` returns the scraped
text exactly when the feed content's stripped length is below 500, a
source URL resolves, scraping it succeeds, and the scraped text is
strictly longer than the stripped feed length; in every other case the
raw feed content is returned unchanged. -/
theorem get_entry_content_spec (scrape : String → Option String) (e : Entry) :
    get_entry_content scrape e true =
      match (resolveSourceUrl e).bind scrape with
      | some s =>
        if cleanLen (feedRssContent e) < 500
            ∧ s.length > cleanLen (feedRssContent e) then s
        else feedRssContent e
      | none => feedRssContent e := by
  unfold get_entry_content resolveSourceUrl
  by_cases hsu : resolveSourceUrlS e = ""
  · simp [hsu]
  · have h1 : (if resolveSourceUrlS e = "" then none
        else some (resolveSourceUrlS e)) = some (resolveSourceUrlS e) :=
      if_neg hsu
    rw [h1]
    cases hsc : scrape (resolveSourceUrlS e) with
    | none => simp [hsc, hsu]
    | some s =>
      by_cases hshort : cleanLen (feedRssContent e) < 500
      · by_cases hlen : s.length > cleanLen (feedRssContent e)
        · have hne : s ≠ "" := by
            intro h
            subst h
            have h0 : ("" : String).length = 0 := rfl
            rw [h0] at hlen
            exact absurd hlen (Nat.not_lt_zero _)
          simp [hsc, hsu, hshort, hlen, hne]
        · simp [hsc, hsu, hshort, hlen]
      · simp [hsc, hsu, hshort]

/-! ## `rss_extractor.py`: `extract_first_image_from_html` and
`find_rss_image` -/

/-- An `<img>` tag as read by `extract_first_image_from_html`
(`img.get("src", "")`). -/
structure HtmlImg where
  src : String := ""
deriving DecidableEq, Repr

/-- `skip_patterns` from `extract_first_image_from_html`. -/
def skip_patterns : List String :=
  ["pixel", "spacer", "blank", "1x1", "tracking", "beacon", "analytics",
   "gravatar", "avatar"]

/-- The per-`<img>` loop of `extract_first_image_from_html`. -/
def firstImageLoop (ujoin : String → String → String) (base_url : String) :
    List HtmlImg → Option String
  | [] => none
  | img :: rest =>
    if img.src = "" then firstImageLoop ujoin base_url rest
    else if skip_patterns.any
        (fun pat => subL pat.data (lowerL img.src.data)) then
      firstImageLoop ujoin base_url rest
    else
      let src :=
        if base_url ≠ ""
            ∧ ¬(pyStartsWith img.src "http://" ∨ pyStartsWith img.src "https://")
        then ujoin base_url img.src
        else img.src
      if is_valid_image_url src then some src
      else firstImageLoop ujoin base_url rest

/-- `extract_first_image_from_html(html, base_url)`.  `BeautifulSoup` and
`urljoin` are oracles: `parse` returns the `<img>` tags in document order
(`none` models a parser exception, which the function catches and turns
into `None`). -/
def extract_first_image_from_html (ujoin : String → String → String)
    (parse : String → Option (List HtmlImg))
    (html : String) (base_url : String := "") : Option String :=
  match parse html with
  | none => none
  | some imgs => firstImageLoop ujoin base_url imgs

/-- The `media_content` loop of `find_rss_image` (stage 1): the declared
type/medium branch and the `elif` branch both accept only when
`is_valid_image_url` holds for the entry's URL. -/
def mediaContentLoop : List MediaItem → Option String
  | [] => none
  | m :: rest =>
    if m.mtype ∈ IMAGE_MIME_TYPES ∨ m.medium = "image" then
      if is_valid_image_url m.url then some m.url
      else mediaContentLoop rest
    else if is_valid_image_url m.url then some m.url
    else mediaContentLoop rest

/-- Stage 1 of `find_rss_image` (`media_content`, with the presence and
truthiness guard). -/
def rssStageMedia (e : Entry) : Option String :=
  match e.media_content with
  | some l => if l ≠ [] then mediaContentLoop l else none
  | none => none

/-- The `media_thumbnail` loop of `find_rss_image` (stage 2). -/
def thumbnailLoop : List ThumbItem → Option String
  | [] => none
  | t :: rest =>
    if is_valid_image_url t.url then some t.url else thumbnailLoop rest

/-- Stage 2 of `find_rss_image`. -/
def rssStageThumb (e : Entry) : Option String :=
  match e.media_thumbnail with
  | some l => if l ≠ [] then thumbnailLoop l else none
  | none => none

/-- `enclosure.get("href", "") or enclosure.get("url", "")`. -/
def enclosureUrl (en : EnclosureItem) : String :=
  if en.href ≠ "" then en.href else en.url

/-- The `enclosures` loop of `find_rss_image` (stage 3): an enclosure is
taken when its declared type is an image MIME type or its URL validates,
but only if the URL (`href or url`) is non-empty. -/
def enclosureLoop : List EnclosureItem → Option String
  | [] => none
  | en :: rest =>
    if en.etype ∈ IMAGE_MIME_TYPES ∨ is_valid_image_url (enclosureUrl en) then
      if enclosureUrl en ≠ "" then some (enclosureUrl en)
      else enclosureLoop rest
    else enclosureLoop rest

/-- Stage 3 of `find_rss_image`. -/
def rssStageEnclosure (e : Entry) : Option String :=
  match e.enclosures with
  | some l => if l ≠ [] then enclosureLoop l else none
  | none => none

/-- The `links` loop of `find_rss_image` (stage 4): the first link whose
declared type is an image MIME type and whose `href` is non-empty. -/
def linksImageLoop : List LinkObj → Option String
  | [] => none
  | l :: rest =>
    if l.ltype.getD "" ∈ IMAGE_MIME_TYPES then
      if l.href.getD "" ≠ "" then some (l.href.getD "")
      else linksImageLoop rest
    else linksImageLoop rest

/-- Stage 4 of `find_rss_image`. -/
def rssStageLinks (e : Entry) : Option String :=
  match e.links with
  | some l => if l ≠ [] then linksImageLoop l else none
  | none => none

/-- The `elif "summary" in entry` / `elif "description" in entry` arms of
stage 5 of `find_rss_image`: these are keyed on key presence. -/
def htmlFromSummary (e : Entry) : String :=
  match e.summary with
  | some s => s
  | none => e.description.getD ""

/-- Stage 5 of `find_rss_image`: the entry's own HTML
(`content[0].value` when `content` is present and truthy, else `summary`
when the key is present, else `description`) handed to the loose
extractor. -/
def rssStageHtml (ujoin : String → String → String)
    (parse : String → Option (List HtmlImg))
    (e : Entry) (base_url : String) : Option String :=
  let html :=
    match e.content with
    | some (h :: _) => h.value
    | some [] => htmlFromSummary e
    | none => htmlFromSummary e
  if html ≠ "" then extract_first_image_from_html ujoin parse html base_url
  else none

/-- Python truthiness of the `image_url` variable in `find_rss_image`
(`None` and `""` are falsy). -/
def optTruthy : Option String → Bool
  | some s => s ≠ ""
  | none => false

/-- The value of `image_url` in `find_rss_image` after stage 2 ran (a
falsy, that is empty-or-absent, stage result lets the next stage run). -/
def rssAfterThumb (e : Entry) : Option String :=
  if ¬optTruthy (rssStageMedia e) then rssStageThumb e else rssStageMedia e

/-- The value of `image_url` after stage 3 (enclosures) ran. -/
def rssAfterEnclosure (e : Entry) : Option String :=
  if ¬optTruthy (rssAfterThumb e) then rssStageEnclosure e
  else rssAfterThumb e

/-- The value of `image_url` after stage 4 (links) ran. -/
def rssAfterLinks (e : Entry) : Option String :=
  if ¬optTruthy (rssAfterEnclosure e) then rssStageLinks e
  else rssAfterEnclosure e

/-- `find_rss_image(entry, base_url)`, mirroring the source's sequential
`if not image_url` structure. -/
def find_rss_image (ujoin : String → String → String)
    (parse : String → Option (List HtmlImg))
    (e : Entry) (base_url : String := "") : Option String :=
  if ¬optTruthy (rssAfterLinks e) then rssStageHtml ujoin parse e base_url
  else rssAfterLinks e

/-! ## Claim theorems for `find_rss_image` -/

theorem is_valid_image_url_ne_empty {s : String}
    (h : is_valid_image_url s = true) : s ≠ "" := by
  intro he
  subst he
  exact absurd h (by decide)

theorem mediaContentLoop_ne_empty {l : List MediaItem} {s : String}
    (h : mediaContentLoop l = some s) : s ≠ "" := by
  induction l with
  | nil => exact absurd h (by simp [mediaContentLoop])
  | cons m rest ih =>
    rw [mediaContentLoop] at h
    split_ifs at h with h1 h2 h3
    · cases h
      exact is_valid_image_url_ne_empty h2
    · exact ih h
    · cases h
      exact is_valid_image_url_ne_empty h3
    · exact ih h

theorem rssStageMedia_ne_empty {e : Entry} {s : String}
    (h : rssStageMedia e = some s) : s ≠ "" := by
  rw [rssStageMedia] at h
  rcases he : e.media_content with _ | l <;> rw [he] at h <;> dsimp only at h
  · exact absurd h (by simp)
  · split_ifs at h with h1
    exact mediaContentLoop_ne_empty h

theorem thumbnailLoop_ne_empty {l : List ThumbItem} {s : String}
    (h : thumbnailLoop l = some s) : s ≠ "" := by
  induction l with
  | nil => exact absurd h (by simp [thumbnailLoop])
  | cons t rest ih =>
    rw [thumbnailLoop] at h
    split_ifs at h with h1
    · cases h
      exact is_valid_image_url_ne_empty h1
    · exact ih h

theorem rssStageThumb_ne_empty {e : Entry} {s : String}
    (h : rssStageThumb e = some s) : s ≠ "" := by
  rw [rssStageThumb] at h
  rcases he : e.media_thumbnail with _ | l <;> rw [he] at h <;> dsimp only at h
  · exact absurd h (by simp)
  · split_ifs at h with h1
    exact thumbnailLoop_ne_empty h

theorem enclosureLoop_ne_empty {l : List EnclosureItem} {s : String}
    (h : enclosureLoop l = some s) : s ≠ "" := by
  induction l with
  | nil => exact absurd h (by simp [enclosureLoop])
  | cons en rest ih =>
    rw [enclosureLoop] at h
    split_ifs at h with h1 h2
    · cases h
      exact h2
    · exact ih h
    · exact ih h

theorem rssStageEnclosure_ne_empty {e : Entry} {s : String}
    (h : rssStageEnclosure e = some s) : s ≠ "" := by
  rw [rssStageEnclosure] at h
  rcases he : e.enclosures with _ | l <;> rw [he] at h <;> dsimp only at h
  · exact absurd h (by simp)
  · split_ifs at h with h1
    exact enclosureLoop_ne_empty h

theorem linksImageLoop_ne_empty {l : List LinkObj} {s : String}
    (h : linksImageLoop l = some s) : s ≠ "" := by
  induction l with
  | nil => exact absurd h (by simp [linksImageLoop])
  | cons lk rest ih =>
    rw [linksImageLoop] at h
    split_ifs at h with h1 h2
    · cases h
      exact h2
    · exact ih h
    · exact ih h

theorem rssStageLinks_ne_empty {e : Entry} {s : String}
    (h : rssStageLinks e = some s) : s ≠ "" := by
  rw [rssStageLinks] at h
  rcases he : e.links with _ | l <;> rw [he] at h <;> dsimp only at h
  · exact absurd h (by simp)
  · split_ifs at h with h1
    exact linksImageLoop_ne_empty h

/-- A truthiness-guarded fallback step equals `Option.orElse` when the
stage never produces `some ""`. -/
theorem truthyStep_eq_orElse (o x : Option String)
    (hne : ∀ s, o = some s → s ≠ "") :
    (if ¬optTruthy o then x else o) = (o <|> x) := by
  cases o with
  | none => simp [optTruthy]
  | some s =>
    have hs : s ≠ "" := hne s rfl
    simp [optTruthy, hs]

theorem mediaContentLoop_eq_findSome (l : List MediaItem) :
    mediaContentLoop l = l.findSome?
      (fun m => if is_valid_image_url m.url then some m.url else none) := by
  induction l with
  | nil => simp [mediaContentLoop]
  | cons m rest ih =>
    rw [mediaContentLoop, List.findSome?_cons]
    by_cases h1 : m.mtype ∈ IMAGE_MIME_TYPES ∨ m.medium = "image" <;>
      by_cases h2 : is_valid_image_url m.url <;>
      simp [h1, h2, ih]

/-- C7 amended: `find_rss_image` evaluates its five stages in the fixed
order media_content, media_thumbnail, enclosures, links, embedded-HTML,
returning the first success; and stage 1 accepts the first
`media_content` entry whose URL validates via `is_valid_image_url` — the
declared-image branch *also* requires the URL to validate, so a declared
type or medium alone is not sufficient. -/
theorem find_rss_image_stage_order (ujoin : String → String → String)
    (parse : String → Option (List HtmlImg)) (e : Entry) (base_url : String) :
    find_rss_image ujoin parse e base_url =
      (rssStageMedia e <|> rssStageThumb e <|> rssStageEnclosure e <|>
        rssStageLinks e <|> rssStageHtml ujoin parse e base_url)
    ∧ rssStageMedia e =
      (e.media_content.getD []).findSome?
        (fun m => if is_valid_image_url m.url then some m.url else none) := by
  have hthumb : rssAfterThumb e = (rssStageMedia e <|> rssStageThumb e) := by
    rw [rssAfterThumb,
      truthyStep_eq_orElse _ _ (fun s h => rssStageMedia_ne_empty h)]
  have hthumb_ne : ∀ s, rssAfterThumb e = some s → s ≠ "" := by
    intro s h
    rw [hthumb] at h
    cases h1 : rssStageMedia e with
    | some t =>
      rw [h1, Option.some_orElse] at h
      cases h
      exact rssStageMedia_ne_empty h1
    | none =>
      rw [h1, Option.none_orElse] at h
      exact rssStageThumb_ne_empty h
  have hencl : rssAfterEnclosure e
      = (rssStageMedia e <|> rssStageThumb e <|> rssStageEnclosure e) := by
    rw [rssAfterEnclosure, truthyStep_eq_orElse _ _ hthumb_ne, hthumb]
    cases rssStageMedia e <;> simp
  have hencl_ne : ∀ s, rssAfterEnclosure e = some s → s ≠ "" := by
    intro s h
    rw [rssAfterEnclosure] at h
    by_cases ht : ¬optTruthy (rssAfterThumb e)
    · rw [if_pos ht] at h
      exact rssStageEnclosure_ne_empty h
    · rw [if_neg ht] at h
      exact hthumb_ne s h
  have hlinks : rssAfterLinks e
      = (rssStageMedia e <|> rssStageThumb e <|> rssStageEnclosure e
          <|> rssStageLinks e) := by
    rw [rssAfterLinks, truthyStep_eq_orElse _ _ hencl_ne, hencl]
    cases rssStageMedia e <;> cases rssStageThumb e <;> simp
  have hlinks_ne : ∀ s, rssAfterLinks e = some s → s ≠ "" := by
    intro s h
    rw [rssAfterLinks] at h
    by_cases ht : ¬optTruthy (rssAfterEnclosure e)
    · rw [if_pos ht] at h
      exact rssStageLinks_ne_empty h
    · rw [if_neg ht] at h
      exact hencl_ne s h
  constructor
  · rw [find_rss_image, truthyStep_eq_orElse _ _ hlinks_ne, hlinks]
    cases rssStageMedia e <;> cases rssStageThumb e <;>
      cases rssStageEnclosure e <;> simp
  · rw [rssStageMedia]
    cases he : e.media_content with
    | none => simp
    | some l =>
      cases l with
      | nil => simp
      | cons m rest => simp [mediaContentLoop_eq_findSome]

/-- C7 counterexample: an entry whose only `media_content` element is
declared `image/jpeg` but whose URL fails `is_valid_image_url` is *not*
accepted at stage 1 — `find_rss_image` returns `none`, where the claim
predicts the declared-image entry is returned as a first match. -/
theorem find_rss_image_declared_image_counterexample :
    find_rss_image (fun _ s => s) (fun _ => none)
      { media_content :=
          some [{ url := "notanimage", mtype := "image/jpeg" }] } ""
      = none
    ∧ is_valid_image_url "notanimage" = false := by
  exact ⟨by decide, by decide⟩

/-! ## `rss_extractor.py`: `scrape_image_from_url`

The HTTP fetch and `BeautifulSoup` are oracles: a fetched page is
abstracted to the element lists the four stages read, in selector order
(an absent attribute is the falsy `""`/`none`).  `urljoin` is an oracle
as well.  The only statement in the `try` block that can raise is the
`srcset.split(",")[0].strip().split()[0]` index access (an
all-whitespace first segment), modelled with `Except`; the surrounding
`except` turns it into `None`. -/

/-- A hero `<img>` as read by stage 4 (`src` / `data-src` attributes). -/
structure HeroImg where
  src : Option String := none
  dataSrc : Option String := none
deriving DecidableEq, Repr

/-- A fetched page, abstracted to what the four stages read:
`<picture><source>` srcset values in selector order, the `og:image` and
`twitter:image` meta contents, and the first `<img>` match of each hero
selector in order. -/
structure Page where
  pictureSrcsets : List String := []
  ogImage : Option String := none
  twitterImage : Option String := none
  heroImgs : List HeroImg := []
deriving DecidableEq, Repr

/-- The stage an accepted image URL came from (ghost annotation used to
state the invariant; the source returns only the URL). -/
inductive ScrapeStage where
  | srcset
  | og
  | twitter
  | hero
deriving DecidableEq, Repr

/-- Relative-URL resolution as both stage 1 and stage 4 perform it:
`urljoin(page_url, s)` unless `s` already starts with `http://` or
`https://`. -/
def resolveRel (ujoin : String → String → String) (pageUrl s : String) :
    String :=
  if ¬(pyStartsWith s "http://" ∨ pyStartsWith s "https://") then ujoin pageUrl s
  else s

/-- The acceptance test of stages 1–3: valid and not domain-blocked. -/
def acceptValidUnblocked (fs : String) : Option String :=
  if is_valid_image_url fs ∧ ¬is_image_domain_blocked fs then some fs
  else none

/-- `srcset.split(",")[0].strip().split()[0]` and the subsequent checks
for one `<source>` element; `.error` models the `IndexError` raised when
the first comma-segment is all whitespace.  (The `if first_src:` test of
the source is always true here: tokens of `split()` are non-empty.) -/
def srcsetFirst (ujoin : String → String → String) (pageUrl srcset : String) :
    Except Unit (Option String) :=
  let seg := pyStripL (srcset.data.takeWhile (· ≠ ','))
  match pySplitWs seg with
  | [] => .error ()
  | t :: _ => .ok (acceptValidUnblocked (resolveRel ujoin pageUrl (String.mk t)))

/-- Stage 1 of `scrape_image_from_url`: the `<picture><source>` loop
(a falsy `srcset` attribute is skipped). -/
def srcsetLoop (ujoin : String → String → String) (pageUrl : String) :
    List String → Except Unit (Option String)
  | [] => .ok none
  | s :: rest =>
    if s = "" then srcsetLoop ujoin pageUrl rest
    else
      match srcsetFirst ujoin pageUrl s with
      | .error e => .error e
      | .ok (some u) => .ok (some u)
      | .ok none => srcsetLoop ujoin pageUrl rest

/-- Stages 2 and 3: an `og:image`/`twitter:image` meta content, accepted
when truthy, valid and unblocked. -/
def metaStage (m : Option String) : Option String :=
  match m with
  | some c =>
    if c ≠ "" ∧ is_valid_image_url c ∧ ¬is_image_domain_blocked c then some c
    else none
  | none => none

/-- `img.get("src") or img.get("data-src")` for a hero `<img>`. -/
def heroSrc (img : HeroImg) : Option String :=
  match img.src with
  | some s => if s ≠ "" then some s else img.dataSrc
  | none => img.dataSrc

/-- The acceptance test of stage 4: valid, same-domain and unblocked. -/
def acceptHero (pageUrl fs : String) : Option String :=
  if is_valid_image_url fs ∧ is_same_domain pageUrl fs
      ∧ ¬is_image_domain_blocked fs then some fs
  else none

def heroLoop (ujoin : String → String → String) (pageUrl : String) :
    List HeroImg → Option String
  | [] => none
  | img :: rest =>
    match heroSrc img with
    | some s =>
      if s ≠ "" then
        match acceptHero pageUrl (resolveRel ujoin pageUrl s) with
        | some u => some u
        | none => heroLoop ujoin pageUrl rest
      else heroLoop ujoin pageUrl rest
    | none => heroLoop ujoin pageUrl rest

/-- The four stages of `scrape_image_from_url` over a fetched page, with
the accepting stage recorded. -/
def scrapeImageStages (ujoin : String → String → String)
    (pageUrl : String) (p : Page) :
    Except Unit (Option (String × ScrapeStage)) :=
  match srcsetLoop ujoin pageUrl p.pictureSrcsets with
  | .error e => .error e
  | .ok (some u) => .ok (some (u, .srcset))
  | .ok none =>
    match metaStage p.ogImage with
    | some u => .ok (some (u, .og))
    | none =>
      match metaStage p.twitterImage with
      | some u => .ok (some (u, .twitter))
      | none =>
        match heroLoop ujoin pageUrl p.heroImgs with
        | some u => .ok (some (u, .hero))
        | none => .ok none

/-- `scrape_image_from_url(url)` with the ghost stage annotation.  The
`fetch` oracle returns the abstracted page (`none` models a request
error or non-2xx status); any in-body exception is caught and becomes
`None`. -/
def scrape_image_from_url_staged (ujoin : String → String → String)
    (fetch : String → Option Page) (url : String) :
    Option (String × ScrapeStage) :=
  if url = "" then none
  else
    match fetch url with
    | none => none
    | some p =>
      match scrapeImageStages ujoin url p with
      | .error _ => none
      | .ok r => r

/-- `scrape_image_from_url(url)` as the source returns it. -/
def scrape_image_from_url (ujoin : String → String → String)
    (fetch : String → Option Page) (url : String) : Option String :=
  (scrape_image_from_url_staged ujoin fetch url).map Prod.fst

/-! ## Claim theorems for `scrape_image_from_url` -/

theorem acceptValidUnblocked_some {w v : String}
    (h : acceptValidUnblocked w = some v) :
    is_valid_image_url v = true ∧ is_image_domain_blocked v = false := by
  rw [acceptValidUnblocked] at h
  split_ifs at h with hc
  obtain rfl : w = v := by simpa using h
  exact ⟨hc.1, by simpa using hc.2⟩

theorem acceptHero_some {pageUrl w v : String}
    (h : acceptHero pageUrl w = some v) :
    is_valid_image_url v = true ∧ is_same_domain pageUrl v = true
      ∧ is_image_domain_blocked v = false := by
  rw [acceptHero] at h
  split_ifs at h with hc
  obtain rfl : w = v := by simpa using h
  exact ⟨hc.1, hc.2.1, by simpa using hc.2.2⟩

theorem srcsetLoop_accepts {ujoin : String → String → String}
    {pageUrl : String} {l : List String} {u : String}
    (h : srcsetLoop ujoin pageUrl l = .ok (some u)) :
    is_valid_image_url u = true ∧ is_image_domain_blocked u = false := by
  induction l with
  | nil => exact absurd h (by simp [srcsetLoop])
  | cons s rest ih =>
    rw [srcsetLoop] at h
    split_ifs at h with h1
    · exact ih h
    · rcases hf : srcsetFirst ujoin pageUrl s with e | o <;> rw [hf] at h
      · exact absurd h (by simp)
      · rcases o with _ | v
        · dsimp only at h
          exact ih h
        · dsimp only at h
          obtain rfl : v = u := by simpa using h
          rw [srcsetFirst] at hf
          rcases hsp : pySplitWs (pyStripL (s.data.takeWhile (· ≠ ','))) with
            _ | ⟨t, ts⟩ <;> rw [hsp] at hf
          · exact absurd hf (by simp)
          · exact acceptValidUnblocked_some (by simpa using hf)

theorem metaStage_accepts {m : Option String} {u : String}
    (h : metaStage m = some u) :
    is_valid_image_url u = true ∧ is_image_domain_blocked u = false := by
  rcases m with _ | c
  · exact absurd h (by simp [metaStage])
  · rw [metaStage] at h
    split_ifs at h with hc
    obtain rfl : c = u := by simpa using h
    exact ⟨hc.2.1, by simpa using hc.2.2⟩

theorem heroLoop_accepts {ujoin : String → String → String}
    {pageUrl : String} {l : List HeroImg} {u : String}
    (h : heroLoop ujoin pageUrl l = some u) :
    is_valid_image_url u = true ∧ is_same_domain pageUrl u = true
      ∧ is_image_domain_blocked u = false := by
  induction l with
  | nil => exact absurd h (by simp [heroLoop])
  | cons img rest ih =>
    rw [heroLoop] at h
    rcases hs : heroSrc img with _ | s <;> rw [hs] at h
    · exact ih h
    · dsimp only at h
      split_ifs at h with h1
      · rcases ha : acceptHero pageUrl (resolveRel ujoin pageUrl s) with _ | v
          <;> rw [ha] at h
        · exact ih h
        · obtain rfl : v = u := by simpa using h
          exact acceptHero_some ha
      · exact ih h

/-- C2: every URL returned by `scrape_image_from_url` is valid and not
domain-blocked, and a URL accepted by the hero-`<img>` stage additionally
satisfies `is_same_domain` with respect to the page URL; meta-tag and
responsive-source results carry no same-domain requirement. -/
theorem scrape_image_from_url_invariant (ujoin : String → String → String)
    (fetch : String → Option Page) (url u : String) (st : ScrapeStage)
    (h : scrape_image_from_url_staged ujoin fetch url = some (u, st)) :
    scrape_image_from_url ujoin fetch url = some u
    ∧ is_valid_image_url u = true
    ∧ is_image_domain_blocked u = false
    ∧ (st = ScrapeStage.hero → is_same_domain url u = true) := by
  refine ⟨by rw [scrape_image_from_url, h]; rfl, ?_⟩
  rw [scrape_image_from_url_staged] at h
  split_ifs at h with h0
  rcases hf : fetch url with _ | p <;> rw [hf] at h
  · exact absurd h (by simp)
  · dsimp only at h
    rw [scrapeImageStages] at h
    rcases h1 : srcsetLoop ujoin url p.pictureSrcsets with e | o <;>
      rw [h1] at h
    · exact absurd h (by simp)
    · rcases o with _ | v
      · dsimp only at h
        rcases h2 : metaStage p.ogImage with _ | v2 <;> rw [h2] at h
        · rcases h3 : metaStage p.twitterImage with _ | v3 <;> rw [h3] at h
          · rcases h4 : heroLoop ujoin url p.heroImgs with _ | v4 <;>
              rw [h4] at h
            · exact absurd h (by simp)
            · obtain ⟨rfl, rfl⟩ : v4 = u ∧ ScrapeStage.hero = st := by
                simpa using h
              obtain ⟨hv, hsd, hb⟩ := heroLoop_accepts h4
              exact ⟨hv, hb, fun _ => hsd⟩
          · obtain ⟨rfl, rfl⟩ : v3 = u ∧ ScrapeStage.twitter = st := by
              simpa using h
            obtain ⟨hv, hb⟩ := metaStage_accepts h3
            exact ⟨hv, hb, by simp⟩
        · obtain ⟨rfl, rfl⟩ : v2 = u ∧ ScrapeStage.og = st := by
            simpa using h
          obtain ⟨hv, hb⟩ := metaStage_accepts h2
          exact ⟨hv, hb, by simp⟩
      · obtain ⟨rfl, rfl⟩ : v = u ∧ ScrapeStage.srcset = st := by
          simpa using h
        obtain ⟨hv, hb⟩ := srcsetLoop_accepts h1
        exact ⟨hv, hb, by simp⟩

/-- C2 witness: a page whose only candidate is a same-domain hero `<img>`
is accepted at the hero stage, and the invariant holds there. -/
theorem scrape_image_from_url_invariant_witness :
    scrape_image_from_url (fun _ s => s)
      (fun _ => some { heroImgs := [{ src := some "https://example.com/pic.jpg" }] })
      "https://example.com/article"
      = some "https://example.com/pic.jpg"
    ∧ is_valid_image_url "https://example.com/pic.jpg" = true
    ∧ is_image_domain_blocked "https://example.com/pic.jpg" = false
    ∧ (ScrapeStage.hero = ScrapeStage.hero →
        is_same_domain "https://example.com/article"
          "https://example.com/pic.jpg" = true) :=
  scrape_image_from_url_invariant (fun _ s => s)
    (fun _ => some { heroImgs := [{ src := some "https://example.com/pic.jpg" }] })
    "https://example.com/article" "https://example.com/pic.jpg"
    ScrapeStage.hero (by decide)

/-! ## `downloader.py`: `download_image`

The HTTP layer is an oracle returning an abstract response; `none`
models a `RequestException`.  `raise_for_status` is the `ok` flag.  The
body is an abstract byte list and PIL's `Image.open`/`verify` is the
`verify` oracle.  Filename derivation (`_extract_filename`) involves an
MD5 hash of the URL, so it is abstracted as the `fname` oracle; no claim
depends on it.  `max_size_mb` is a Python float, modelled as a rational —
exact for the default `5.0` and every value the claims mention. -/

/-- An HTTP response as `download_image` reads it. -/
structure HttpResponse where
  ok : Bool := true
  contentLength : Option String := none
  contentType : Option String := none
  body : List Nat := []
deriving DecidableEq, Repr

/-- Decimal digits to a natural number. -/
def digitsToNat : List Char → Nat → Nat
  | [], acc => acc
  | c :: rest, acc => digitsToNat rest (acc * 10 + (c.toNat - '0'.toNat))

/-- Python `int(s)` on a decimal string: optional surrounding whitespace
and sign, then at least one digit; `none` models a `ValueError`. -/
def pyInt (s : String) : Option Int :=
  let t := pyStripL s.data
  let (sign, digits) :=
    match t with
    | '-' :: rest => ((-1 : Int), rest)
    | '+' :: rest => ((1 : Int), rest)
    | _ => ((1 : Int), t)
  if digits ≠ [] ∧ digits.all (·.isDigit) then
    some (sign * (digitsToNat digits 0 : Int))
  else none

/-- The `Content-Length` early rejection of `download_image`
(lines 47–50): `some false` means the declared size exceeds the ceiling,
`none` a `ValueError` from `int()` (caught by the outer `except`), and
`some true` lets the body be read.  A missing or empty header skips the
check. -/
def sizeCheck (max_size_mb : ℚ) : Option String → Option Bool
  | some cl =>
    if cl ≠ "" then
      match pyInt cl with
      | some n =>
        if (n : ℚ) > max_size_mb * 1024 * 1024 then some false
        else some true
      | none => none
    else some true
  | none => some true

/-- `download_image(url, max_size_mb, timeout)`.  Returns
`(bytes, filename, content_type)` on success. -/
def download_image (fetch : String → Option HttpResponse)
    (verify : List Nat → Bool) (fname : String → String → String)
    (url : String) (max_size_mb : ℚ := 5) :
    Option (List Nat × String × String) :=
  match fetch url with
  | none => none
  | some resp =>
    if ¬resp.ok then none
    else
      match sizeCheck max_size_mb resp.contentLength with
      | none => none
      | some false => none
      | some true =>
        if ¬verify resp.body then none
        else
          some (resp.body, fname url (resp.contentType.getD "image/jpeg"),
            resp.contentType.getD "image/jpeg")

/-- C8: when the response's `Content-Length` header parses to more bytes
than the `max_size_mb` ceiling, `download_image` returns `none`,
regardless of the body and of the decode oracle (the rejection happens
before the body is read). -/
theorem download_image_rejects_oversize
    (fetch : String → Option HttpResponse) (verify : List Nat → Bool)
    (fname : String → String → String) (url cl : String)
    (resp : HttpResponse) (n : Int) (max_size_mb : ℚ)
    (hfetch : fetch url = some resp) (hok : resp.ok = true)
    (hcl : resp.contentLength = some cl) (hn : pyInt cl = some n)
    (hbig : (n : ℚ) > max_size_mb * 1024 * 1024) :
    download_image fetch verify fname url max_size_mb = none := by
  have hne : cl ≠ "" := by
    intro he
    rw [he] at hn
    have h0 : pyInt "" = none := by decide
    rw [h0] at hn
    exact Option.noConfusion hn
  have hsz : sizeCheck max_size_mb resp.contentLength = some false := by
    rw [hcl, sizeCheck]
    simp only [hne, ne_eq, not_false_eq_true, if_true, hn, hbig, if_pos]
  rw [download_image, hfetch]
  simp only [hok, Bool.not_true, Bool.false_eq_true, if_false, hsz]
  simp

/-- C8 witness: a 10 MB `Content-Length` against the default 5 MB
ceiling is rejected whatever the body. -/
theorem download_image_rejects_oversize_witness :
    download_image
      (fun _ => some { contentLength := some "10485760", body := [1, 2, 3] })
      (fun _ => true) (fun _ _ => "f") "https://example.com/pic.jpg" 5
      = none :=
  download_image_rejects_oversize _ _ _ _ "10485760"
    { contentLength := some "10485760", body := [1, 2, 3] }
    10485760 5 rfl rfl rfl (by decide) (by norm_num)

/-! ## `downloader.py`: keyword extraction and the stock-photo fallback -/

/-- `stop_words` from `extract_keywords`. -/
def stop_words : List String :=
  ["the", "a", "an", "and", "or", "but", "in", "on", "at", "to", "for",
   "of", "with", "by", "from", "as", "is", "was", "are", "were", "been",
   "be", "have", "has", "had", "do", "does", "did", "will", "would",
   "could", "should", "may", "might", "must", "shall", "can", "need",
   "this", "that", "these", "those", "it", "its", "their", "our", "your",
   "new", "announces", "released", "says", "reports", "today", "week"]

/-- A Python `\w` word character (ASCII): alphanumeric or underscore. -/
def isWordChar (c : Char) : Bool := c.isAlphanum ∨ c = '_'

/-- The `for w in keywords` loop of `extract_keywords`: collect words not
yet seen, stopping once `max_words` have been collected (the length check
runs after every iteration). -/
def uniqueTake (maxW : Nat) : List String → Nat → List String → List String
  | _, _, [] => []
  | seen, cnt, w :: rest =>
    if w ∈ seen then
      if cnt ≥ maxW then [] else uniqueTake maxW seen cnt rest
    else
      if cnt + 1 ≥ maxW then [w]
      else w :: uniqueTake maxW (w :: seen) (cnt + 1) rest

/-- `extract_keywords(text, max_words)`: lowercase, replace each
non-word non-space character with a space, split on whitespace, drop
stop words and words of length ≤ 2, keep the first `max_words` unique
words in order, join with spaces. -/
def extract_keywords (text : String) (max_words : Nat := 5) : String :=
  let cleaned := (lowerL text.data).map
    (fun c => if isWordChar c ∨ isPySpace c then c else ' ')
  let words := (pySplitWs cleaned).map String.mk
  let keywords := words.filter
    (fun w => w ∉ stop_words ∧ w.data.length > 2)
  String.intercalate " " (uniqueTake max_words [] 0 keywords)

/-- `sport_queries` from `find_fallback_image` (a `dict`, so iteration
follows insertion order). -/
def sport_queries : List (String × List String) :=
  [("basketball", ["basketball", "mbball", "wbball", "hoops"]),
   ("baseball", ["baseball"]),
   ("softball", ["softball"]),
   ("football", ["football"]),
   ("soccer", ["soccer", "msoc", "wsoc"]),
   ("volleyball", ["volleyball", "vball"]),
   ("tennis", ["tennis", "mten", "wten"]),
   ("golf", ["golf", "mgolf", "wgolf"]),
   ("track", ["track", "mtrack", "wtrack", "cross country", "mcross",
     "wcross"]),
   ("swimming", ["swimming", "swim"])]

/-- The sport-detection double loop of `find_fallback_image`: the first
group (in insertion order) with an alias occurring in the combined
lowercased text. -/
def detectSport (combined : List Char) : Option String :=
  (sport_queries.find?
    (fun p => p.2.any (fun k => subL k.data combined))).map Prod.fst

/-- The query construction of `find_fallback_image` (lines 206–242):
`"college <sport> sport"` for a detected sport, else extracted keywords,
else `"college sports athletics"`. -/
def buildFallbackQuery (title feed_name : String) : String :=
  let combined := lowerL (title ++ " " ++ feed_name).data
  match detectSport combined with
  | some sport => "college " ++ sport ++ " sport"
  | none =>
    let q := extract_keywords (title ++ " " ++ feed_name)
    if q = "" then "college sports athletics" else q

/-- A stock-photo result (`{url, photographer, source, alt_text}`). -/
structure FallbackImage where
  url : String
  photographer : String
  source : String
  alt_text : String
deriving DecidableEq, Repr

/-- `find_fallback_image(title, feed_name, pexels_key, unsplash_key)`.
The provider clients are oracles from the query string; `none` covers
both an empty result and a raised-and-swallowed provider exception. -/
def find_fallback_image
    (pexels : Option (String → Option FallbackImage))
    (unsplash : Option (String → Option FallbackImage))
    (title feed_name : String) : Option FallbackImage :=
  match pexels, unsplash with
  | none, none => none
  | _, _ =>
    let query := buildFallbackQuery title feed_name
    let viaPexels :=
      match pexels with
      | some search => search query
      | none => none
    match viaPexels with
    | some r => some r
    | none =>
      match unsplash with
      | some search => search query
      | none => none

/-- C9: sport detection scans the lowercased title-plus-feed-name against
the keyword groups in fixed order and the first group with a matching
alias substring forms `"college <sport> sport"`; the title
`"Lady Tigers MBBall Wins Championship"` matches the basketball group via
the `mbball` alias, so the query is `"college basketball sport"` for
every feed name, and a configured provider is queried with exactly that
string. -/
theorem find_fallback_image_sport_query (feed_name : String)
    (search : String → Option FallbackImage) :
    buildFallbackQuery "Lady Tigers MBBall Wins Championship" feed_name
      = "college basketball sport"
    ∧ find_fallback_image (some search) none
        "Lady Tigers MBBall Wins Championship" feed_name
      = search "college basketball sport" := by
  have hq : buildFallbackQuery "Lady Tigers MBBall Wins Championship"
      feed_name = "college basketball sport" := by
    rw [buildFallbackQuery]
    have hsub : subL "mbball".data
        (lowerL ("Lady Tigers MBBall Wins Championship" ++ " "
          ++ feed_name).data) = true := by
      rw [subL_iff]
      have h1 : ("Lady Tigers MBBall Wins Championship" ++ " "
          ++ feed_name).data
          = "Lady Tigers MBBall Wins Championship".data
            ++ (" " ++ feed_name).data := by
        rw [← String.data_append, String.append_assoc]
      rw [h1, lowerL, List.map_append]
      refine List.IsInfix.trans ?_ (List.prefix_append _ _).isInfix
      have : subL "mbball".data
          (lowerL "Lady Tigers MBBall Wins Championship".data) = true := by
        decide
      exact (subL_iff _ _).mp this
    have hfind : detectSport (lowerL ("Lady Tigers MBBall Wins Championship"
        ++ " " ++ feed_name).data) = some "basketball" := by
      rw [detectSport, sport_queries, List.find?_cons_of_pos]
      · rfl
      · simp only [List.any_eq_true]
        exact ⟨"mbball", by decide, hsub⟩
    rw [hfind]
    rfl
  refine ⟨hq, ?_⟩
  rw [find_fallback_image, hq]
  cases hs : search "college basketball sport" <;> simp [hs]

/-! ## Untyped entries and exception propagation (`get_entry_content`)

`get_entry_content`, `get_entry_link` and `find_rss_image` run without
any `try`/`except`, so an entry of an unexpected shape can raise.  This
untyped embedding of `get_entry_content` models Python values and the
exceptions its attribute accesses can raise: `.get` on a non-mapping
raises `AttributeError`; `re.sub` on a non-string raises `TypeError`;
iterating a truthy non-list `links` value raises at its first element
(`AttributeError` for the 1-character strings produced by iterating a
`str`, or `TypeError` for a non-iterable) — collapsed here into one
error, since only raising-versus-returning matters. -/

inductive PyErr where
  | attributeError
  | typeError
deriving DecidableEq, Repr

/-- A Python value as the entry accessors can encounter it. -/
inductive PyVal where
  | pynone : PyVal
  | str : String → PyVal
  | int : Int → PyVal
  | list : List PyVal → PyVal
  | dict : List (String × PyVal) → PyVal

/-- Python truthiness. -/
def PyVal.truthy : PyVal → Bool
  | .pynone => false
  | .str s => s ≠ ""
  | .int n => n ≠ 0
  | .list l => ¬l.isEmpty
  | .dict d => ¬d.isEmpty

def PyVal.isStr : PyVal → Bool
  | .str _ => true
  | _ => false

/-- Python `v == "s"` for the string comparisons of the link loop. -/
def PyVal.eqStr : PyVal → String → Bool
  | .str t, s => t == s
  | _, _ => false

/-- Dictionary lookup (first binding wins; Python dict keys are unique). -/
def dictLookup (d : List (String × PyVal)) (k : String) : Option PyVal :=
  (d.find? (fun kv => kv.1 == k)).map Prod.snd

/-- An untyped feed entry: the top-level mapping. -/
abbrev PyEntry := List (String × PyVal)

/-- `entry.get(k, default)` on the top-level entry (always a mapping). -/
def entryGetD (e : PyEntry) (k : String) (dflt : PyVal) : PyVal :=
  (dictLookup e k).getD dflt

/-- `k in entry`. -/
def hasKey (e : PyEntry) (k : String) : Bool := (dictLookup e k).isSome

/-- `v.get(k, default)`: `AttributeError` when `v` is not a mapping. -/
def pyGet (v : PyVal) (k : String) (dflt : PyVal) : Except PyErr PyVal :=
  match v with
  | .dict d => .ok ((dictLookup d k).getD dflt)
  | _ => .error .attributeError

/-- Lines 156–162 of `get_entry_content`: the `content` branch.  Only a
present, truthy `content` is read; `isinstance(contents, list)` guards
the subscript, but `contents[0].get` raises when the first element is
not a mapping. -/
def contentStep (e : PyEntry) : Except PyErr PyVal :=
  if hasKey e "content" ∧ (entryGetD e "content" .pynone).truthy then
    match entryGetD e "content" .pynone with
    | .list (h :: _) => pyGet h "value" (.str "")
    | _ => .ok (.str "")
  else .ok (.str "")

/-- Lines 156–175 of `get_entry_content`: feed content selection followed
by the `re.sub` calls, which require `rss_content` to be a string. -/
def rssContentStep (e : PyEntry) : Except PyErr String :=
  match contentStep e with
  | .error err => .error err
  | .ok rss1 =>
    let rss2 :=
      if ¬rss1.truthy ∧ hasKey e "summary" then entryGetD e "summary" (.str "")
      else rss1
    let rss3 :=
      if ¬rss2.truthy then entryGetD e "description" (.str "") else rss2
    match rss3 with
    | .str s => .ok s
    | _ => .error .typeError

/-- The `for link in entry["links"]` loop of lines 181–184: the first
link whose `rel` is `"alternate"` or whose `type` is `"text/html"`
yields its `href`; a non-mapping element raises at its `.get`. -/
def findAltLink : List PyVal → Except PyErr (Option PyVal)
  | [] => .ok none
  | l :: rest =>
    match pyGet l "rel" .pynone with
    | .error err => .error err
    | .ok r =>
      if r.eqStr "alternate" then
        match pyGet l "href" .pynone with
        | .error err => .error err
        | .ok h => .ok (some h)
      else
        match pyGet l "type" .pynone with
        | .error err => .error err
        | .ok t =>
          if t.eqStr "text/html" then
            match pyGet l "href" .pynone with
            | .error err => .error err
            | .ok h => .ok (some h)
          else findAltLink rest

/-- Lines 179–186: resolve the source URL value. -/
def resolveSourceE (e : PyEntry) : Except PyErr PyVal :=
  let su1 := entryGetD e "link" (.str "")
  if ¬su1.truthy ∧ hasKey e "links" ∧ (entryGetD e "links" .pynone).truthy then
    match entryGetD e "links" .pynone with
    | .list ls =>
      (match findAltLink ls with
      | .error err => .error err
      | .ok found =>
        let su2 := match found with | some h => h | none => su1
        if ¬su2.truthy then
          match ls with
          | h :: _ => pyGet h "href" (.str "")
          | [] => .ok su2
        else .ok su2)
    | _ => .error .typeError
  else .ok su1

/-- `scrape_article_content(source_url)` applied to an arbitrary value:
that function catches every exception internally (including the
`requests` failure on a non-string URL) and returns `None`. -/
def scrapePy (scrape : String → Option String) : PyVal → Option String
  | .str s => scrape s
  | _ => none

/-- `get_entry_content(entry, scrape_if_short)` over untyped entries,
with exceptions made explicit. -/
def get_entry_content_py (scrape : String → Option String)
    (e : PyEntry) (scrape_if_short : Bool := true) : Except PyErr String :=
  match rssContentStep e with
  | .error err => .error err
  | .ok rssS =>
    let clean := cleanLen rssS
    if scrape_if_short ∧ clean < 500 then
      match resolveSourceE e with
      | .error err => .error err
      | .ok su =>
        if su.truthy then
          match scrapePy scrape su with
          | some sc =>
            if sc ≠ "" ∧ sc.length > clean then .ok sc else .ok rssS
          | none => .ok rssS
        else .ok rssS
    else .ok rssS

/-! ### Well-shaped entries -/

/-- A `content` element that cannot raise: a mapping whose `value`, if
present, is a string. -/
def contentItemOk : PyVal → Bool
  | .dict d =>
    match dictLookup d "value" with
    | some v => v.isStr
    | none => true
  | _ => false

/-- The `content` field is absent, or a list of well-shaped mappings, or
a non-list (which `isinstance` guards harmlessly). -/
def contentFieldOk (e : PyEntry) : Bool :=
  match dictLookup e "content" with
  | some (.list l) => l.all contentItemOk
  | some _ => true
  | none => true

/-- Field `k` is absent or a string. -/
def strOrAbsent (e : PyEntry) (k : String) : Bool :=
  match dictLookup e k with
  | some v => v.isStr
  | none => true

def linkItemOk : PyVal → Bool
  | .dict _ => true
  | _ => false

/-- The `links` field is absent, a list of mappings, or falsy (never
iterated). -/
def linksFieldOk (e : PyEntry) : Bool :=
  match dictLookup e "links" with
  | some (.list l) => l.all linkItemOk
  | some v => !v.truthy
  | none => true

/-- Entries on which `get_entry_content` cannot raise: string-valued
`summary`/`description`, well-shaped `content` and `links`. -/
def wellShapedEntry (e : PyEntry) : Bool :=
  contentFieldOk e ∧ strOrAbsent e "summary" ∧ strOrAbsent e "description"
    ∧ linksFieldOk e

def isOkE : Except PyErr String → Bool
  | .ok _ => true
  | .error _ => false

/-! ### C4 theorems -/

/-- C4 counterexample: an entry whose `content` list holds a string
instead of a mapping makes `get_entry_content` raise `AttributeError`
(at `contents[0].get("value", "")`, line 162) — the exception propagates
to the caller, where the claim says every such operation returns a
value. -/
theorem get_entry_content_py_raises :
    get_entry_content_py (fun _ => none)
      [("content", PyVal.list [PyVal.str "hello"])] true
      = .error PyErr.attributeError := rfl

theorem entryGetD_str {e : PyEntry} {k : String}
    (h : strOrAbsent e k = true) :
    ∃ s, entryGetD e k (.str "") = .str s := by
  rw [strOrAbsent] at h
  rw [entryGetD]
  rcases hl : dictLookup e k with _ | v
  · exact ⟨"", rfl⟩
  · rw [hl] at h
    rcases v with _ | s | n | l | d <;>
      simp only [PyVal.isStr, Bool.false_eq_true] at h
    exact ⟨s, rfl⟩

theorem contentStep_str {e : PyEntry} (h : contentFieldOk e = true) :
    ∃ s, contentStep e = .ok (.str s) := by
  rw [contentFieldOk] at h
  rw [contentStep]
  split_ifs with hcnd
  · rcases hl : dictLookup e "content" with _ | v <;> rw [entryGetD, hl]
    · exact ⟨"", rfl⟩
    · rw [hl] at h
      rcases v with _ | s | n | cl | d
      · exact ⟨"", rfl⟩
      · exact ⟨"", rfl⟩
      · exact ⟨"", rfl⟩
      · rcases cl with _ | ⟨c0, crest⟩
        · exact ⟨"", rfl⟩
        · simp only [Option.getD_some]
          dsimp only at h ⊢
          rw [List.all_cons, Bool.and_eq_true] at h
          obtain ⟨hc0, hrest⟩ := h
          rcases c0 with _ | s0 | n0 | l0 | d0 <;>
            simp only [contentItemOk, Bool.false_eq_true] at hc0
          simp only [pyGet]
          rcases hv : dictLookup d0 "value" with _ | v0
          · exact ⟨"", rfl⟩
          · rw [hv] at hc0
            rcases v0 with _ | s1 | n1 | l1 | d1 <;>
              simp only [PyVal.isStr, Bool.false_eq_true] at hc0
            exact ⟨s1, rfl⟩
      · exact ⟨"", rfl⟩
  · exact ⟨"", rfl⟩

theorem rssContentStep_ok {e : PyEntry}
    (hc : contentFieldOk e = true) (hs : strOrAbsent e "summary" = true)
    (hd : strOrAbsent e "description" = true) :
    ∃ s, rssContentStep e = .ok s := by
  obtain ⟨s1, h1⟩ := contentStep_str hc
  obtain ⟨s2, h2⟩ := entryGetD_str hs
  obtain ⟨s3, h3⟩ := entryGetD_str hd
  rw [rssContentStep, h1]
  dsimp only
  rw [h2, h3]
  split_ifs <;> exact ⟨_, rfl⟩

theorem findAltLink_ok {ls : List PyVal}
    (h : ls.all linkItemOk = true) : ∃ o, findAltLink ls = .ok o := by
  induction ls with
  | nil => exact ⟨none, rfl⟩
  | cons l rest ih =>
    rw [List.all_cons, Bool.and_eq_true] at h
    obtain ⟨hl0, hrest⟩ := h
    obtain ⟨o, ho⟩ := ih hrest
    rcases l with _ | s | n | l0 | d <;>
      simp only [linkItemOk, Bool.false_eq_true] at hl0
    rw [findAltLink]
    simp only [pyGet]
    split_ifs with hb1 hb2
    · exact ⟨_, rfl⟩
    · exact ⟨_, rfl⟩
    · exact ⟨o, ho⟩

theorem linksFallback_ok {ls : List PyVal}
    (h : ls.all linkItemOk = true) (su : PyVal) :
    ∃ v, (match ls with
      | h0 :: _ => pyGet h0 "href" (PyVal.str "")
      | [] => Except.ok su) = .ok v := by
  rcases ls with _ | ⟨l0, lrest⟩
  · exact ⟨su, rfl⟩
  · rw [List.all_cons, Bool.and_eq_true] at h
    obtain ⟨hl0, hlrest⟩ := h
    rcases l0 with _ | s0 | n0 | ll0 | d0 <;>
      simp only [linkItemOk, Bool.false_eq_true] at hl0
    exact ⟨_, rfl⟩

theorem resolveSourceE_ok {e : PyEntry} (h : linksFieldOk e = true) :
    ∃ v, resolveSourceE e = .ok v := by
  rw [linksFieldOk] at h
  rw [resolveSourceE]
  dsimp only
  split_ifs with hb
  · have htr : (entryGetD e "links" PyVal.pynone).truthy = true := hb.2.2
    rcases hl : dictLookup e "links" with _ | v <;>
      rw [entryGetD, hl] at htr ⊢ <;> rw [hl] at h
    · exact absurd htr (by decide)
    · rcases v with _ | s | n | ls | d
      · exact absurd htr (by decide)
      · dsimp only at h
        simp only [Option.getD_some] at htr
        rw [htr] at h
        exact absurd h (by decide)
      · dsimp only at h
        simp only [Option.getD_some] at htr
        rw [htr] at h
        exact absurd h (by decide)
      · dsimp only at h
        simp only [Option.getD_some]
        obtain ⟨o, ho⟩ := findAltLink_ok h
        rw [ho]
        dsimp only
        rcases o with _ | hv <;> split_ifs with hb2 <;>
          first
          | exact ⟨_, rfl⟩
          | exact linksFallback_ok h _
      · dsimp only at h
        simp only [Option.getD_some] at htr
        rw [htr] at h
        exact absurd h (by decide)
  · exact ⟨_, rfl⟩

/-- C4 amended: the operations whose bodies are wrapped in catch-all
handlers (`scrape_article_content`, `scrape_image_from_url`,
`extract_first_image_from_html`, `download_image`, `find_fallback_image`)
never let an exception propagate, but `get_entry_content`,
`get_entry_link` and `find_rss_image` have no handler and can raise
`AttributeError`/`TypeError` on heterogeneously shaped entries; on
well-shaped entries (string `summary`/`description`, `content` a list of
mappings with string `value`s, `links` a list of mappings)
`get_entry_content` always returns a value. -/
theorem get_entry_content_py_total (scrape : String → Option String)
    (e : PyEntry) (h : wellShapedEntry e = true) :
    isOkE (get_entry_content_py scrape e true) = true := by
  rw [wellShapedEntry] at h
  simp only [Bool.and_eq_true, decide_eq_true_eq] at h
  obtain ⟨hc, hs, hd, hl⟩ := h
  obtain ⟨rssS, hr⟩ := rssContentStep_ok hc hs hd
  rw [get_entry_content_py, hr]
  dsimp only
  split_ifs with hshort
  · obtain ⟨su, hsu⟩ := resolveSourceE_ok hl
    rw [hsu]
    dsimp only
    split_ifs with hb1
    · rcases hsc : scrapePy scrape su with _ | sc
      · rfl
      · dsimp only
        split_ifs with hb2 <;> rfl
    · rfl
  · rfl

/-- C4 amended witness: a concrete well-shaped entry on which
`get_entry_content` returns. -/
theorem get_entry_content_py_total_witness :
    isOkE (get_entry_content_py (fun _ => none)
      [("summary", PyVal.str "hi")] true) = true :=
  get_entry_content_py_total (fun _ => none)
    [("summary", PyVal.str "hi")] (by rfl)

end TippahSports
